import Mathlib

/-!
Shallow embedding of the forecasting core of `src/budget_app/app.py`:
the monthly and weekly date-recurrence generators, the transaction
assembler `get_all_transactions`, the forecast builder
`generate_forecast`, and the summary metrics computed when the
"Generate Forecast" button is clicked.

Conventions of the embedding:
* Timestamps are calendar dates at midnight.  The monthly generator
  manipulates year/month/day fields (`Date` below); everywhere else a
  date is its Rata-Die day number (`toRD`), which is order-isomorphic
  to the timestamp value.
* `row.get(key, default)` on a record row is modelled with `Option`
  fields and `Option.getD`.
* Monetary amounts are rationals.
* A raised exception that escapes a function is modelled by `none`.
* The `while` loops are written with an explicit fuel argument that is
  strictly larger than the number of iterations the loop can perform
  (one month, respectively at least seven days, of progress per
  iteration); this keeps every definition computable by the kernel.
-/

namespace BudgetApp

/-- Gregorian leap-year rule, as applied by the host date library. -/
def isLeap (y : Nat) : Bool :=
  (y % 4 == 0 && y % 100 != 0) || y % 400 == 0

/-- Number of days in month `m` of year `y` (`pd.Period(cursor, freq='M').days_in_month`). -/
def monthDays (y m : Nat) : Nat :=
  if m = 2 then (if isLeap y then 29 else 28)
  else if m = 4 ∨ m = 6 ∨ m = 9 ∨ m = 11 then 30
  else 31

/-- A calendar date. -/
structure Date where
  year : Nat
  month : Nat
  day : Nat
deriving DecidableEq, Repr

/-- Chronological order on dates (timestamp order): lexicographic on (year, month, day). -/
def Date.le (a b : Date) : Prop :=
  a.year < b.year ∨ (a.year = b.year ∧ (a.month < b.month ∨ (a.month = b.month ∧ a.day ≤ b.day)))

/-- Strict chronological order on dates. -/
def Date.lt (a b : Date) : Prop :=
  a.year < b.year ∨ (a.year = b.year ∧ (a.month < b.month ∨ (a.month = b.month ∧ a.day < b.day)))

instance : LE Date := ⟨Date.le⟩

instance : LT Date := ⟨Date.lt⟩

instance (a b : Date) : Decidable (a ≤ b) :=
  decidable_of_iff (a.year < b.year ∨ (a.year = b.year ∧ (a.month < b.month ∨ (a.month = b.month ∧ a.day ≤ b.day)))) Iff.rfl

instance (a b : Date) : Decidable (a < b) :=
  decidable_of_iff (a.year < b.year ∨ (a.year = b.year ∧ (a.month < b.month ∨ (a.month = b.month ∧ a.day < b.day)))) Iff.rfl

/-- A well-formed calendar date. -/
def Date.Valid (d : Date) : Prop :=
  1 ≤ d.month ∧ d.month ≤ 12 ∧ 1 ≤ d.day ∧ d.day ≤ monthDays d.year d.month

instance (d : Date) : Decidable d.Valid :=
  decidable_of_iff (1 ≤ d.month ∧ d.month ≤ 12 ∧ 1 ≤ d.day ∧ d.day ≤ monthDays d.year d.month) Iff.rfl

/-- `cursor.replace(day=n)`: succeeds only when `n` is a valid day of `d`'s month,
otherwise the library raises (`none`). -/
def replaceDay (d : Date) (n : Int) : Option Date :=
  if 1 ≤ n ∧ n ≤ (monthDays d.year d.month : Int) then some ⟨d.year, d.month, n.toNat⟩ else none

/-- `cursor + relativedelta(months=1)`: advance by one calendar month,
clamping the day to the length of the new month. -/
def addMonthClamp (d : Date) : Date :=
  let y := if d.month = 12 then d.year + 1 else d.year
  let m := if d.month = 12 then 1 else d.month + 1
  ⟨y, m, min d.day (monthDays y m)⟩

/-- Body step of the `while` loop in `get_dates_monthly`: one month forward,
then `cursor.replace(day=min(day_of_month, max_d))`.  The `replace` call is
not guarded by `try` in the source, so its failure propagates (`none`). -/
def stepMonth (d : Date) (day : Int) : Option Date :=
  let c := addMonthClamp d
  replaceDay c (min day (monthDays c.year c.month : Int))

/-- Linear (year, month) counter; used to bound the number of loop iterations. -/
def monthIdx (d : Date) : Nat := 12 * d.year + d.month

/-- The `while cursor <= end_date` loop of `get_dates_monthly`.  In the source the
cursor is appended and then stepped; an exception raised by the step discards the
whole result, hence the `none` propagation.  The fuel argument passed by
`get_dates_monthly` strictly exceeds the number of iterations (the cursor gains one
month per iteration), so the `0` case is reached only past `end_date`. -/
def monthlyLoop (endD : Date) (day : Int) : Nat → Date → Option (List Date)
  | 0, cursor => if cursor ≤ endD then none else some []
  | fuel+1, cursor =>
    if cursor ≤ endD then
      match stepMonth cursor day with
      | none => none
      | some c => (monthlyLoop endD day fuel c).map (cursor :: ·)
    else some []

/-- Initial cursor of `get_dates_monthly`: clamp the start date's day to
`min(day_of_month, days_in_month)` inside a `try` block (a failed `replace`
leaves the cursor at `start_date`), then advance one month if the candidate
falls before `start_date`. -/
def monthlyFirst (startD : Date) (day : Int) : Date :=
  let c0 := match replaceDay startD (min day (monthDays startD.year startD.month : Int)) with
    | some c => c
    | none => startD
  if c0 < startD then addMonthClamp c0 else c0

/-- `get_dates_monthly(start_date, end_date, day_of_month)`.  `none` models an
exception escaping the while loop. -/
def get_dates_monthly (startD endD : Date) (day : Int) : Option (List Date) :=
  let c := monthlyFirst startD day
  monthlyLoop endD day (monthIdx endD + 1 - monthIdx c) c

/-- Days before January 1 of year `y` in the proleptic Gregorian calendar. -/
def daysBeforeYear (y : Nat) : Nat :=
  365 * (y - 1) + (y - 1) / 4 - (y - 1) / 100 + (y - 1) / 400

/-- Days in year `y` before the first of month `m`. -/
def daysBeforeMonth (y m : Nat) : Nat :=
  (match m with
   | 1 => 0 | 2 => 31 | 3 => 59 | 4 => 90 | 5 => 120 | 6 => 151
   | 7 => 181 | 8 => 212 | 9 => 243 | 10 => 273 | 11 => 304 | _ => 334)
  + (if 3 ≤ m ∧ isLeap y then 1 else 0)

/-- Rata-Die day number of a date (`toRD ⟨1,1,1⟩ = 1`); order-isomorphic to the
timestamp value of the date. -/
def toRD (d : Date) : Nat :=
  daysBeforeYear d.year + daysBeforeMonth d.year d.month + d.day

/-- `ts.weekday()`: Monday = 0 .. Sunday = 6 (day 1, 0001-01-01, is a Monday). -/
def weekday (rd : Nat) : Nat := (rd + 6) % 7

/-- The `days_map` dictionary of `get_dates_weekly`. -/
def daysMap (s : String) : Option Nat :=
  if s = "Monday" then some 0
  else if s = "Tuesday" then some 1
  else if s = "Wednesday" then some 2
  else if s = "Thursday" then some 3
  else if s = "Friday" then some 4
  else if s = "Saturday" then some 5
  else if s = "Sunday" then some 6
  else none

/-- The `while cursor <= end` loop of `get_dates_weekly`.  The fuel passed by
`get_dates_weekly` strictly exceeds the number of iterations (the cursor gains
at least seven days per iteration), so the `0` case is reached only past `end`. -/
def weeklyLoop (endD step : Nat) : Nat → Nat → List Nat
  | 0, _ => []
  | fuel+1, cursor =>
    if cursor ≤ endD then cursor :: weeklyLoop endD step fuel (cursor + step) else []

/-- One cell of a table row, as `get_all_transactions` sees it after
`pd.DataFrame(records)`: the column may be `absent` from the whole table
(`row.get(key, default)` then returns its default), or present with a missing
value (pandas fills the cell with NaN, and `row.get` returns that NaN as-is),
or hold an actual value. -/
inductive Cell (α : Type) where
  | absent
  | nan
  | val (a : α)
deriving DecidableEq, Repr

/-- Truthiness of `row.get('Active', False)`: an absent column yields the falsy
default `False`; a NaN cell is truthy in Python; a stored Bool is itself. -/
def activeTruthy : Cell Bool → Bool
  | .absent => false
  | .nan => true
  | .val b => b

/-- A string-valued field as it flows out of `row.get`: either an actual string
or the NaN carried through from a missing cell. -/
inductive PyStr where
  | nan
  | val (s : String)
deriving DecidableEq, Repr

/-- `row.get(key, default)` for a string column: the default only replaces an
absent column; a NaN cell passes through unchanged. -/
def getStr : Cell String → String → PyStr
  | .absent, d => .val d
  | .nan, _ => .nan
  | .val s, _ => .val s

/-- `int(row.get('Day (1-31)', 1))`: an absent column takes the default 1, a
stored number is converted, and `int(nan)` raises `ValueError` (`none`). -/
def dayOfMonthValue : Cell Int → Option Int
  | .absent => some 1
  | .nan => none
  | .val n => some n

/-- `days_map.get(day_str, 0)` before the default is applied: a NaN day name is
not a key of the dictionary, exactly like an unknown string. -/
def daysMapPy : PyStr → Option Nat
  | .val s => daysMap s
  | .nan => none

/-- `get_dates_weekly(start_date, end_date, freq, day_str)` over day numbers.
`days_map.get(day_str, 0)` defaults unknown day names (and a NaN cell) to
Monday; the Python expression `(target_idx - cursor.weekday()) % 7` is
non-negative and equals `(target_idx + 7 - cursor.weekday()) % 7` here; the
step is 7 days exactly when `freq == 'Weekly'` (a NaN freq is not equal to
any string) and otherwise 14. -/
def get_dates_weekly (startD endD : Nat) (freq dayStr : PyStr) : List Nat :=
  let target := (daysMapPy dayStr).getD 0
  let daysAhead := (target + 7 - weekday startD) % 7
  let cursor := startD + daysAhead
  weeklyLoop endD (if freq = PyStr.val ("Weekly") then 7 else 14) (endD + 1 - cursor) cursor

/-- A row of the monthly table, as a record (`to_dict(orient='records')` /
`pd.DataFrame` row); `kind` is the `'Type'` column, `dayOfMonth` the
`'Day (1-31)'` column. -/
structure MonthlyRow where
  active : Cell Bool
  kind : Cell String
  name : Option String
  category : Cell String
  amount : Rat
  dayOfMonth : Cell Int
deriving DecidableEq, Repr

/-- A row of the weekly table; `freq` is the `'Freq'` column and `dayName`
the `'Day Name'` column. -/
structure WeeklyRow where
  active : Cell Bool
  kind : Cell String
  name : Option String
  category : Cell String
  amount : Rat
  freq : Cell String
  dayName : Cell String
deriving DecidableEq, Repr

/-- A row of the one-time table.  `date` is the already-parsed `'Date'` column:
`none` models an absent column, a NaN cell or an unparseable value (the source
skips all of those via `pd.notna` and a `try/except` around `pd.to_datetime`). -/
structure OneTimeRow where
  active : Cell Bool
  kind : Cell String
  name : Option String
  category : Cell String
  amount : Rat
  date : Option Nat
deriving DecidableEq, Repr

/-- An assembled transaction record: the columns Date (as a day number),
Description, Category, Amount (signed), and Type (`kind`); the Category and
Type cells can carry a NaN through from the source row. -/
structure Transaction where
  date : Nat
  description : String
  category : PyStr
  amount : Rat
  kind : PyStr
deriving DecidableEq, Repr

/-- `row['Amount'] if row.get('Type') == 'Income' else -abs(row['Amount'])`
(`row.get('Type')` compares equal to `'Income'` only for that stored string;
an absent column gives `None` and a NaN cell gives NaN, neither equal). -/
def signedAmount (kind : Cell String) (amount : Rat) : Rat :=
  if kind = Cell.val ("Income") then amount else -|amount|

/-- `'Income' if row.get('Type') == 'Income' else row.get('Category', 'Uncategorized')`:
the Bill branch defaults only an absent Category column; a NaN cell is emitted
as NaN. -/
def emitCategory (kind category : Cell String) : PyStr :=
  if kind = Cell.val ("Income") then PyStr.val ("Income")
  else getStr category ("Uncategorized")

/-- The monthly branch of `get_all_transactions` for one row: when the row is
active (a NaN Active cell is truthy), expand its dates and emit one transaction
per date.  `none` models the exceptions that `int(row.get('Day (1-31)', 1))`
and `get_dates_monthly` can raise. -/
def expandMonthly (startD endD : Date) (row : MonthlyRow) : Option (List Transaction) :=
  if activeTruthy row.active then
    (dayOfMonthValue row.dayOfMonth).bind fun day =>
      (get_dates_monthly startD endD day).map fun ds =>
        ds.map fun d =>
          ⟨toRD d, row.name.getD ("Unnamed"), emitCategory row.kind row.category,
            signedAmount row.kind row.amount, getStr row.kind ("Bill")⟩
  else some []

/-- The weekly branch of `get_all_transactions` for one row: `row.get('Freq',
'Weekly')` substitutes the default only for an absent Freq column, while a NaN
cell reaches the `freq == 'Weekly'` test unchanged (and fails it). -/
def expandWeekly (startD endD : Date) (row : WeeklyRow) : List Transaction :=
  if activeTruthy row.active then
    (get_dates_weekly (toRD startD) (toRD endD) (getStr row.freq ("Weekly"))
        (getStr row.dayName ("Monday"))).map fun d =>
      ⟨d, row.name.getD ("Unnamed"), emitCategory row.kind row.category,
        signedAmount row.kind row.amount, getStr row.kind ("Bill")⟩
  else []

/-- The one-time branch of `get_all_transactions` for one row: an active row
(a NaN Active cell is truthy) with a present, parseable date inside
`[start_date, end_date]` emits exactly one transaction; anything else is
skipped silently. -/
def expandOneTime (startD endD : Date) (row : OneTimeRow) : List Transaction :=
  if activeTruthy row.active then
    match row.date with
    | some d =>
      if toRD startD ≤ d ∧ d ≤ toRD endD then
        [⟨d, row.name.getD ("Unnamed"), emitCategory row.kind row.category,
          signedAmount row.kind row.amount, getStr row.kind ("Bill")⟩]
      else []
    | none => []
  else []

/-- The `for _, row in df_monthly.iterrows()` loop: rows are expanded in order
and an exception raised for one row aborts the whole call. -/
def expandMonthlyRows (startD endD : Date) : List MonthlyRow → Option (List Transaction)
  | [] => some []
  | r :: rs =>
    (expandMonthly startD endD r).bind fun ts =>
      (expandMonthlyRows startD endD rs).map (ts ++ ·)

/-- The chronological order used by
`df.sort_values(by=['Date', 'Amount'], ascending=[True, False])`:
ascending by the date value, and by signed amount descending within one date. -/
def txOrder (a b : Transaction) : Prop :=
  a.date < b.date ∨ (a.date = b.date ∧ b.amount ≤ a.amount)

instance : DecidableRel txOrder := fun a b =>
  decidable_of_iff (a.date < b.date ∨ (a.date = b.date ∧ b.amount ≤ a.amount)) Iff.rfl

/-- Sorting of the assembled transaction list by `txOrder`. -/
def sortTransactions (ts : List Transaction) : List Transaction :=
  ts.insertionSort txOrder

/-- `get_all_transactions(seed, start_val, monthly, weekly, onetime)`: the seed
pseudo-transaction followed by the expanded monthly, weekly and one-time rows,
sorted chronologically.  The horizon end is December 31 of the start year.
`none` models an exception escaping from monthly expansion. -/
def get_all_transactions (seed : Rat) (startD : Date) (monthly : List MonthlyRow)
    (weekly : List WeeklyRow) (onetime : List OneTimeRow) : Option (List Transaction) :=
  let endD : Date := ⟨startD.year, 12, 31⟩
  let seedTx : Transaction :=
    ⟨toRD startD, "Starting Balance", PyStr.val ("Deposit"), seed, PyStr.val ("Seed")⟩
  (expandMonthlyRows startD endD monthly).map fun ms =>
    let all := seedTx :: (ms ++ (weekly.map (expandWeekly startD endD)).flatten
      ++ (onetime.map (expandOneTime startD endD)).flatten)
    if all.isEmpty then [] else sortTransactions all

/-- A row of the forecast output: the columns Description, Category, Amount,
Checking Balance, and Date.  The Date column is reformatted to a display string
only after sorting; `date` here is the underlying date value. -/
structure ForecastRow where
  description : String
  category : PyStr
  amount : Rat
  balance : Rat
  date : Nat
deriving DecidableEq, Repr

/-- `df['Checking Balance'] = df['Amount'].cumsum()` starting from `acc`. -/
def addRunning (acc : Rat) : List Transaction → List ForecastRow
  | [] => []
  | t :: ts =>
    ⟨t.description, t.category, t.amount, acc + t.amount, t.date⟩ :: addRunning (acc + t.amount) ts

/-- `generate_forecast(seed, start_val, monthly, weekly, onetime)`: the sorted
transaction list with the cumulative running balance.  `none` models a raised
exception. -/
def generate_forecast (seed : Rat) (startD : Date) (monthly : List MonthlyRow)
    (weekly : List WeeklyRow) (onetime : List OneTimeRow) : Option (List ForecastRow) :=
  (get_all_transactions seed startD monthly weekly onetime).map fun df =>
    if df.isEmpty then [] else addRunning 0 df

/-- Summary metrics of the "Generate Forecast" click handler, computed from a
non-empty forecast: ending balance `result_df.iloc[-1]['Checking Balance']`,
minimum balance `result_df['Checking Balance'].min()`, and average monthly
surplus `(end_bal - seed) / max(1, (eoy.year - start.year)*12 + (eoy.month - start.month))`. -/
def forecastMetrics (seed : Rat) (startD : Date) (monthly : List MonthlyRow)
    (weekly : List WeeklyRow) (onetime : List OneTimeRow) : Option (Rat × Rat × Rat) :=
  (generate_forecast seed startD monthly weekly onetime).bind fun rows =>
    match rows.getLast? with
    | none => none
    | some lastRow =>
      let endBal := lastRow.balance
      let minBal := ((rows.map ForecastRow.balance).foldl min endBal)
      let eoy : Date := ⟨startD.year, 12, 31⟩
      let monthsRemaining : Int :=
        max 1 (((eoy.year : Int) - startD.year) * 12 + ((eoy.month : Int) - startD.month))
      some (endBal, minBal, (endBal - seed) / (monthsRemaining : Rat))

/-! ## Helper lemmas -/

theorem Date.le_def (a b : Date) : (a ≤ b) =
    (a.year < b.year ∨ (a.year = b.year ∧ (a.month < b.month ∨ (a.month = b.month ∧ a.day ≤ b.day)))) :=
  rfl

theorem Date.lt_def (a b : Date) : (a < b) =
    (a.year < b.year ∨ (a.year = b.year ∧ (a.month < b.month ∨ (a.month = b.month ∧ a.day < b.day)))) :=
  rfl

theorem date_le_refl (a : Date) : a ≤ a := by
  rw [Date.le_def]; omega

theorem date_le_trans {a b c : Date} (hab : a ≤ b) (hbc : b ≤ c) : a ≤ c := by
  rw [Date.le_def] at *; omega

theorem date_le_of_lt {a b : Date} (h : a < b) : a ≤ b := by
  rw [Date.le_def]; rw [Date.lt_def] at h; omega

theorem date_le_of_not_lt {a b : Date} (h : ¬ a < b) : b ≤ a := by
  rw [Date.le_def]; rw [Date.lt_def] at h; omega

theorem monthDays_pos (y m : Nat) : 1 ≤ monthDays y m := by
  unfold monthDays
  repeat' split
  all_goals omega

theorem weeklyLoop_head {endD step fuel cursor : Nat} :
    ∀ h ∈ (weeklyLoop endD step fuel cursor).head?, h = cursor := by
  cases fuel with
  | zero => simp [weeklyLoop]
  | succ n =>
    unfold weeklyLoop
    split <;> simp

theorem weeklyLoop_chain (endD step : Nat) :
    ∀ fuel cursor, List.Chain' (fun a b => b = a + step) (weeklyLoop endD step fuel cursor) := by
  intro fuel
  induction fuel with
  | zero => intro cursor; simp [weeklyLoop]
  | succ n ih =>
    intro cursor
    unfold weeklyLoop
    split
    · exact List.chain'_cons'.mpr ⟨fun h hh => (weeklyLoop_head h hh).symm ▸ rfl, ih _⟩
    · simp

/-! ## Claim C6 -/

/-- C6: the claim states that for every `dayOfMonth` outside 1..31 the monthly
generator must not crash.  The code violates this: for `day_of_month = 0` the
first clamp fails inside `try/except` but the re-clamp inside the `while` loop
is unguarded, so `cursor.replace(day=0)` raises `ValueError` as soon as one date
is in range.  This theorem evaluates the embedded code at the failing input
`(start = 2026-06-15, end = 2026-12-31, day_of_month = 0)`: the call aborts
(`none`) instead of degrading to the nearest valid day. -/
theorem C6_day_zero_crash :
    get_dates_monthly ⟨2026, 6, 15⟩ ⟨2026, 12, 31⟩ 0 = none := by decide

/-! ## Claim C8 -/

unseal Rat.add Rat.mul Rat.inv Rat.sub in
/-- C8 (counterexample to the claim as stated): a one-time item whose Active
value is missing — a NaN cell in a table that has the Active column — is not
treated as inactive: `row.get('Active', False)` returns the truthy NaN and the
item does contribute a transaction. -/
theorem C8_nan_active_expanded :
    expandOneTime ⟨2026, 1, 1⟩ ⟨2026, 12, 31⟩
      ⟨Cell.nan, Cell.val ("Income"), some ("Tax"), Cell.val ("B"), 1500, some 739700⟩ ≠ [] := by
  decide

/-- C8 (amended): a rule or item whose Active key is absent — its table has no
Active column at all — is treated as inactive and contributes nothing; but a
missing Active value in a table that does have the column reaches the row as a
truthy NaN, so such a rule is treated exactly like an active one. -/
theorem C8_missing_active_key (startD endD : Date)
    (mrow : MonthlyRow) (wrow : WeeklyRow) (orow : OneTimeRow)
    (hm : mrow.active = Cell.absent) (hw : wrow.active = Cell.absent)
    (ho : orow.active = Cell.absent) :
    (expandMonthly startD endD mrow = some [] ∧
     expandWeekly startD endD wrow = [] ∧
     expandOneTime startD endD orow = []) ∧
    (∀ mrow2 : MonthlyRow, mrow2.active = Cell.nan →
      expandMonthly startD endD mrow2 =
        expandMonthly startD endD { mrow2 with active := Cell.val true }) ∧
    (∀ wrow2 : WeeklyRow, wrow2.active = Cell.nan →
      expandWeekly startD endD wrow2 =
        expandWeekly startD endD { wrow2 with active := Cell.val true }) ∧
    (∀ orow2 : OneTimeRow, orow2.active = Cell.nan →
      expandOneTime startD endD orow2 =
        expandOneTime startD endD { orow2 with active := Cell.val true }) := by
  refine ⟨⟨?_, ?_, ?_⟩, ?_, ?_, ?_⟩
  · simp [expandMonthly, hm, activeTruthy]
  · simp [expandWeekly, hw, activeTruthy]
  · simp [expandOneTime, ho, activeTruthy]
  · intro r h
    simp [expandMonthly, h, activeTruthy]
  · intro r h
    simp [expandWeekly, h, activeTruthy]
  · intro r h
    simp [expandOneTime, h, activeTruthy]

theorem C8_missing_active_key_witness :
    (⟨Cell.absent, Cell.val ("Bill"), some ("Rent"), Cell.val ("Housing"), 500, Cell.val 1⟩ : MonthlyRow).active = Cell.absent ∧
    ((expandMonthly ⟨2026, 1, 1⟩ ⟨2026, 12, 31⟩
        ⟨Cell.absent, Cell.val ("Bill"), some ("Rent"), Cell.val ("Housing"), 500, Cell.val 1⟩ = some [] ∧
      expandWeekly ⟨2026, 1, 1⟩ ⟨2026, 12, 31⟩
        ⟨Cell.absent, Cell.val ("Bill"), some ("Food"), Cell.val ("G"), 200, Cell.val ("Weekly"), Cell.val ("Friday")⟩ = [] ∧
      expandOneTime ⟨2026, 1, 1⟩ ⟨2026, 12, 31⟩
        ⟨Cell.absent, Cell.val ("Income"), some ("Tax"), Cell.val ("B"), 1500, some 739700⟩ = []) ∧
     (∀ mrow2 : MonthlyRow, mrow2.active = Cell.nan →
       expandMonthly ⟨2026, 1, 1⟩ ⟨2026, 12, 31⟩ mrow2 =
         expandMonthly ⟨2026, 1, 1⟩ ⟨2026, 12, 31⟩ { mrow2 with active := Cell.val true }) ∧
     (∀ wrow2 : WeeklyRow, wrow2.active = Cell.nan →
       expandWeekly ⟨2026, 1, 1⟩ ⟨2026, 12, 31⟩ wrow2 =
         expandWeekly ⟨2026, 1, 1⟩ ⟨2026, 12, 31⟩ { wrow2 with active := Cell.val true }) ∧
     (∀ orow2 : OneTimeRow, orow2.active = Cell.nan →
       expandOneTime ⟨2026, 1, 1⟩ ⟨2026, 12, 31⟩ orow2 =
         expandOneTime ⟨2026, 1, 1⟩ ⟨2026, 12, 31⟩ { orow2 with active := Cell.val true })) :=
  ⟨rfl, C8_missing_active_key ⟨2026, 1, 1⟩ ⟨2026, 12, 31⟩ _ _ _ rfl rfl rfl⟩

/-! ## Claim C10 -/

unseal Rat.add Rat.mul Rat.inv Rat.sub in
/-- C10 (counterexample to the claim as stated): the claim puts a missing
frequency value "replaced by the default" in the 14-day class, but the default
that `row.get('Freq', 'Weekly')` substitutes for an absent Freq column is the
7-day string itself: an active weekly rule with no Freq key steps 7 days, so
its emitted dates do not form a 14-day chain. -/
theorem C10_missing_freq_seven_step :
    ¬ List.Chain' (fun a b => b = a + 14)
      ((expandWeekly ⟨2026, 3, 10⟩ ⟨2026, 4, 10⟩
        ⟨Cell.val true, Cell.val ("Bill"), some ("G"), Cell.absent, 50, Cell.absent,
          Cell.val ("Friday")⟩).map Transaction.date) := by
  intro h
  have heq : (expandWeekly ⟨2026, 3, 10⟩ ⟨2026, 4, 10⟩
      ⟨Cell.val true, Cell.val ("Bill"), some ("G"), Cell.absent, 50, Cell.absent,
        Cell.val ("Friday")⟩).map Transaction.date =
      [toRD ⟨2026, 3, 13⟩, toRD ⟨2026, 3, 20⟩, toRD ⟨2026, 3, 27⟩,
       toRD ⟨2026, 4, 3⟩, toRD ⟨2026, 4, 10⟩] := by decide
  rw [heq] at h
  exact absurd (List.chain'_cons.mp h).1 (by decide)

/-- C10 (amended): the 7-day step applies exactly when the frequency value that
reaches `get_dates_weekly` is the string "Weekly" — which includes a row whose
Freq key is absent, because `row.get('Freq', 'Weekly')` substitutes that
default.  Every other value, including "Bi-Weekly", a misspelling, or the NaN
of a missing cell in an existing Freq column, silently falls back to the
14-day step, with no error raised. -/
theorem C10_biweekly_fallback :
    (∀ (startD endD : Nat) (freq dayStr : PyStr), freq ≠ PyStr.val ("Weekly") →
      List.Chain' (fun a b => b = a + 14) (get_dates_weekly startD endD freq dayStr)) ∧
    (∀ (startD endD : Date) (row : WeeklyRow), row.freq = Cell.absent →
      List.Chain' (fun a b => b = a + 7)
        ((expandWeekly startD endD row).map Transaction.date)) := by
  constructor
  · intro startD endD freq dayStr hfreq
    unfold get_dates_weekly
    rw [if_neg hfreq]
    exact weeklyLoop_chain _ _ _ _
  · intro startD endD row hfreq
    unfold expandWeekly
    split
    · rw [hfreq, List.map_map]
      have hid : (Transaction.date ∘ fun d =>
          (⟨d, row.name.getD ("Unnamed"), emitCategory row.kind row.category,
            signedAmount row.kind row.amount, getStr row.kind ("Bill")⟩ : Transaction)) =
          fun d => d := rfl
      rw [hid, List.map_id']
      simp only [getStr]
      unfold get_dates_weekly
      rw [if_pos rfl]
      exact weeklyLoop_chain _ _ _ _
    · simp

unseal Rat.add Rat.mul Rat.inv Rat.sub in
theorem C10_biweekly_fallback_witness :
    PyStr.nan ≠ PyStr.val ("Weekly") ∧
    List.Chain' (fun a b => b = a + 14)
      (get_dates_weekly 700 760 PyStr.nan (PyStr.val ("Friday"))) :=
  ⟨by decide, C10_biweekly_fallback.1 700 760 PyStr.nan (PyStr.val ("Friday")) (by decide)⟩

/-! ## Claim C7 -/

/-- C7: an active one-time item emits exactly one transaction exactly when its
date is present and lies within `[startDate, December 31 of startDate's year]`
inclusive; an item with a missing date or a date outside that window is
silently skipped and contributes nothing. -/
theorem C7_onetime_window (startD : Date) (row : OneTimeRow)
    (hact : row.active = Cell.val true) :
    ((expandOneTime startD ⟨startD.year, 12, 31⟩ row).length = 1 ↔
      ∃ d, row.date = some d ∧ toRD startD ≤ d ∧ d ≤ toRD ⟨startD.year, 12, 31⟩) ∧
    ((expandOneTime startD ⟨startD.year, 12, 31⟩ row = []) ↔
      ¬ ∃ d, row.date = some d ∧ toRD startD ≤ d ∧ d ≤ toRD ⟨startD.year, 12, 31⟩) ∧
    (row.date = none → expandOneTime startD ⟨startD.year, 12, 31⟩ row = []) := by
  unfold expandOneTime
  rw [hact]
  simp only [activeTruthy, if_true]
  cases hd : row.date with
  | none => simp
  | some d =>
    by_cases hin : toRD startD ≤ d ∧ d ≤ toRD ⟨startD.year, 12, 31⟩
    · simp [hin]
    · simp [hin]

theorem C7_onetime_window_witness :
    (⟨Cell.val true, Cell.val ("Bill"), some ("Trip"), Cell.val ("Travel"), 900, some 739700⟩ : OneTimeRow).active = Cell.val true ∧
    (((expandOneTime ⟨2026, 1, 1⟩ ⟨2026, 12, 31⟩
        ⟨Cell.val true, Cell.val ("Bill"), some ("Trip"), Cell.val ("Travel"), 900, some 739700⟩).length = 1 ↔
      ∃ d, (⟨Cell.val true, Cell.val ("Bill"), some ("Trip"), Cell.val ("Travel"), 900, some 739700⟩ : OneTimeRow).date = some d ∧
        toRD ⟨2026, 1, 1⟩ ≤ d ∧ d ≤ toRD ⟨2026, 12, 31⟩) ∧
     ((expandOneTime ⟨2026, 1, 1⟩ ⟨2026, 12, 31⟩
        ⟨Cell.val true, Cell.val ("Bill"), some ("Trip"), Cell.val ("Travel"), 900, some 739700⟩ = []) ↔
      ¬ ∃ d, (⟨Cell.val true, Cell.val ("Bill"), some ("Trip"), Cell.val ("Travel"), 900, some 739700⟩ : OneTimeRow).date = some d ∧
        toRD ⟨2026, 1, 1⟩ ≤ d ∧ d ≤ toRD ⟨2026, 12, 31⟩) ∧
     ((⟨Cell.val true, Cell.val ("Bill"), some ("Trip"), Cell.val ("Travel"), 900, some 739700⟩ : OneTimeRow).date = none →
      expandOneTime ⟨2026, 1, 1⟩ ⟨2026, 12, 31⟩
        ⟨Cell.val true, Cell.val ("Bill"), some ("Trip"), Cell.val ("Travel"), 900, some 739700⟩ = [])) :=
  ⟨rfl, C7_onetime_window ⟨2026, 1, 1⟩ _ rfl⟩

/-! ## Claim C5 -/

unseal Rat.add Rat.mul Rat.inv Rat.sub in
/-- C5 (counterexample to the claim as stated): for an active Bill row whose
Category value is missing — a NaN cell in a table that has the Category
column — `row.get('Category', 'Uncategorized')` returns the NaN itself, so
the emitted category is NaN, not the claimed "Uncategorized" default. -/
theorem C5_nan_category_not_defaulted :
    ((expandOneTime ⟨2026, 1, 1⟩ ⟨2026, 12, 31⟩
        ⟨Cell.val true, Cell.val ("Bill"), some ("Trip"), Cell.nan, 900, some 739700⟩).map
      Transaction.category) = [PyStr.nan] ∧ PyStr.nan ≠ PyStr.val ("Uncategorized") :=
  ⟨by decide, by decide⟩

/-- C5 (amended): every transaction emitted for an active monthly rule, weekly
rule or one-time item carries the sign convention and category normalization:
an Income row keeps its stored amount (`+amount`) and has its category forced
to "Income" regardless of the stored category; a Bill row gets `-abs(amount)`
and keeps its stored category, with the "Uncategorized" default substituted
only when the Category key is absent — a missing value in an existing Category
column (NaN) is emitted as NaN. -/
theorem C5_sign_and_category (startD endD : Date) :
    (∀ row : MonthlyRow, activeTruthy row.active = true →
      ∀ ts, expandMonthly startD endD row = some ts → ∀ t ∈ ts,
        (row.kind = Cell.val ("Income") →
          t.amount = row.amount ∧ t.category = PyStr.val ("Income")) ∧
        (row.kind = Cell.val ("Bill") →
          t.amount = -|row.amount| ∧
          (row.category = Cell.absent → t.category = PyStr.val ("Uncategorized")) ∧
          (row.category = Cell.nan → t.category = PyStr.nan) ∧
          (∀ s, row.category = Cell.val s → t.category = PyStr.val s))) ∧
    (∀ row : WeeklyRow, activeTruthy row.active = true →
      ∀ t ∈ expandWeekly startD endD row,
        (row.kind = Cell.val ("Income") →
          t.amount = row.amount ∧ t.category = PyStr.val ("Income")) ∧
        (row.kind = Cell.val ("Bill") →
          t.amount = -|row.amount| ∧
          (row.category = Cell.absent → t.category = PyStr.val ("Uncategorized")) ∧
          (row.category = Cell.nan → t.category = PyStr.nan) ∧
          (∀ s, row.category = Cell.val s → t.category = PyStr.val s))) ∧
    (∀ row : OneTimeRow, activeTruthy row.active = true →
      ∀ t ∈ expandOneTime startD endD row,
        (row.kind = Cell.val ("Income") →
          t.amount = row.amount ∧ t.category = PyStr.val ("Income")) ∧
        (row.kind = Cell.val ("Bill") →
          t.amount = -|row.amount| ∧
          (row.category = Cell.absent → t.category = PyStr.val ("Uncategorized")) ∧
          (row.category = Cell.nan → t.category = PyStr.nan) ∧
          (∀ s, row.category = Cell.val s → t.category = PyStr.val s))) := by
  refine ⟨?_, ?_, ?_⟩
  · intro row hact ts hts t ht
    unfold expandMonthly at hts
    rw [hact, if_pos rfl] at hts
    obtain ⟨day, _, hts⟩ := Option.bind_eq_some.mp hts
    obtain ⟨ds, _, rfl⟩ := Option.map_eq_some'.mp hts
    obtain ⟨d, _, rfl⟩ := List.mem_map.mp ht
    constructor
    · intro hk
      simp [signedAmount, emitCategory, hk]
    · intro hk
      refine ⟨by simp [signedAmount, hk], ?_, ?_, ?_⟩
      · intro hcat; simp [emitCategory, getStr, hk, hcat]
      · intro hcat; simp [emitCategory, getStr, hk, hcat]
      · intro s hcat; simp [emitCategory, getStr, hk, hcat]
  · intro row hact t ht
    unfold expandWeekly at ht
    rw [hact, if_pos rfl] at ht
    obtain ⟨d, _, rfl⟩ := List.mem_map.mp ht
    constructor
    · intro hk
      simp [signedAmount, emitCategory, hk]
    · intro hk
      refine ⟨by simp [signedAmount, hk], ?_, ?_, ?_⟩
      · intro hcat; simp [emitCategory, getStr, hk, hcat]
      · intro hcat; simp [emitCategory, getStr, hk, hcat]
      · intro s hcat; simp [emitCategory, getStr, hk, hcat]
  · intro row hact t ht
    unfold expandOneTime at ht
    rw [hact, if_pos rfl] at ht
    cases hd : row.date with
    | none => rw [hd] at ht; simp at ht
    | some d =>
      rw [hd] at ht
      split at ht
      · split at ht
        · rcases List.mem_singleton.mp ht with rfl
          constructor
          · intro hk
            simp [signedAmount, emitCategory, hk]
          · intro hk
            refine ⟨by simp [signedAmount, hk], ?_, ?_, ?_⟩
            · intro hcat; simp [emitCategory, getStr, hk, hcat]
            · intro hcat; simp [emitCategory, getStr, hk, hcat]
            · intro s hcat; simp [emitCategory, getStr, hk, hcat]
        · simp at ht
      · simp at ht

theorem C5_sign_and_category_witness :
    activeTruthy (⟨Cell.val true, Cell.val ("Bill"), some ("Trip"), Cell.absent, 900,
      some 739700⟩ : OneTimeRow).active = true ∧
    (∀ t ∈ expandOneTime ⟨2026, 3, 10⟩ ⟨2026, 12, 31⟩
        ⟨Cell.val true, Cell.val ("Bill"), some ("Trip"), Cell.absent, 900, some 739700⟩,
      ((⟨Cell.val true, Cell.val ("Bill"), some ("Trip"), Cell.absent, 900, some 739700⟩ : OneTimeRow).kind = Cell.val ("Income") →
        t.amount = 900 ∧ t.category = PyStr.val ("Income")) ∧
      ((⟨Cell.val true, Cell.val ("Bill"), some ("Trip"), Cell.absent, 900, some 739700⟩ : OneTimeRow).kind = Cell.val ("Bill") →
        t.amount = -|(900 : Rat)| ∧
        ((⟨Cell.val true, Cell.val ("Bill"), some ("Trip"), Cell.absent, 900, some 739700⟩ : OneTimeRow).category = Cell.absent →
          t.category = PyStr.val ("Uncategorized")) ∧
        ((⟨Cell.val true, Cell.val ("Bill"), some ("Trip"), Cell.absent, 900, some 739700⟩ : OneTimeRow).category = Cell.nan →
          t.category = PyStr.nan) ∧
        (∀ s, (⟨Cell.val true, Cell.val ("Bill"), some ("Trip"), Cell.absent, 900, some 739700⟩ : OneTimeRow).category = Cell.val s →
          t.category = PyStr.val s))) :=
  ⟨rfl, (C5_sign_and_category ⟨2026, 3, 10⟩ ⟨2026, 12, 31⟩).2.2 _ rfl⟩

/-! ## Claim C4 -/

theorem daysMap_le_six {s : String} {t : Nat} (h : daysMap s = some t) : t ≤ 6 := by
  unfold daysMap at h
  repeat' split at h
  all_goals simp_all
  all_goals omega

theorem daysMapPy_le_six {s : PyStr} {t : Nat} (h : daysMapPy s = some t) : t ≤ 6 := by
  cases s with
  | nan => simp [daysMapPy] at h
  | val s => exact daysMap_le_six h

theorem weeklyLoop_mem (endD step : Nat) (hstep : step % 7 = 0) :
    ∀ fuel cursor, ∀ d ∈ weeklyLoop endD step fuel cursor,
      cursor ≤ d ∧ d ≤ endD ∧ d % 7 = cursor % 7 := by
  intro fuel
  induction fuel with
  | zero => intro cursor d hd; simp [weeklyLoop] at hd
  | succ n ih =>
    intro cursor d hd
    unfold weeklyLoop at hd
    split at hd
    · rcases List.mem_cons.mp hd with rfl | hd'
      · exact ⟨Nat.le_refl _, by assumption, rfl⟩
      · obtain ⟨h1, h2, h3⟩ := ih (cursor + step) d hd'
        exact ⟨by omega, h2, by omega⟩
    · simp at hd

theorem weeklyLoop_head_eq (endD step fuel cursor : Nat) (hfuel : endD < cursor + fuel) :
    (weeklyLoop endD step fuel cursor).head? = if cursor ≤ endD then some cursor else none := by
  cases fuel with
  | zero => rw [if_neg (by omega)]; rfl
  | succ n =>
    unfold weeklyLoop
    split <;> simp

/-- C4: for a valid weekday name and a frequency of "Weekly" or "Bi-Weekly",
every date emitted by the weekly generator falls on the target weekday between
`startDate` and `endDate`; consecutive dates differ by exactly 7 (Weekly) or 14
(otherwise) days; the first emitted date is the first occurrence of the target
weekday on or after `startDate` (equal to `startDate` itself when it already
falls on that weekday — zero-day advance); and no date before that first
occurrence has the target weekday. -/
theorem C4_weekly_generator (startD endD : Nat) (freq dayStr : PyStr) (target : Nat)
    (hfreq : freq = PyStr.val ("Weekly") ∨ freq = PyStr.val ("Bi-Weekly"))
    (hday : daysMapPy dayStr = some target) (hse : startD ≤ endD) :
    (∀ d ∈ get_dates_weekly startD endD freq dayStr,
      weekday d = target ∧ startD ≤ d ∧ d ≤ endD) ∧
    List.Chain' (fun a b => b = a + (if freq = PyStr.val ("Weekly") then 7 else 14))
      (get_dates_weekly startD endD freq dayStr) ∧
    (get_dates_weekly startD endD freq dayStr).head? =
      (if startD + (target + 7 - weekday startD) % 7 ≤ endD
       then some (startD + (target + 7 - weekday startD) % 7) else none) ∧
    (weekday startD = target →
      (get_dates_weekly startD endD freq dayStr).head? = some startD) ∧
    (∀ d, startD ≤ d → d < startD + (target + 7 - weekday startD) % 7 →
      weekday d ≠ target) := by
  have htar : target ≤ 6 := daysMapPy_le_six hday
  have hstep7 : (if freq = PyStr.val ("Weekly") then 7 else 14) % 7 = 0 := by split <;> rfl
  unfold get_dates_weekly
  rw [hday]
  simp only [Option.getD_some]
  set first := startD + (target + 7 - weekday startD) % 7 with hfirst
  have hwd_first : weekday first = target := by
    unfold weekday at hfirst ⊢
    omega
  refine ⟨?_, ?_, ?_, ?_, ?_⟩
  · intro d hd
    obtain ⟨h1, h2, h3⟩ := weeklyLoop_mem endD _ hstep7 _ first d hd
    refine ⟨?_, by omega, h2⟩
    unfold weekday at hwd_first ⊢
    omega
  · exact weeklyLoop_chain _ _ _ _
  · exact weeklyLoop_head_eq endD _ _ first (by omega)
  · intro hw
    have hfs : first = startD := by
      unfold weekday at hw hfirst
      omega
    rw [weeklyLoop_head_eq endD _ _ first (by omega), hfs, if_pos hse]
  · intro d hsd hdf hwd
    unfold weekday at hwd hfirst
    omega

theorem C4_weekly_generator_witness :
    (PyStr.val ("Weekly") = PyStr.val ("Weekly") ∨ PyStr.val ("Weekly") = PyStr.val ("Bi-Weekly")) ∧
    daysMapPy (PyStr.val ("Friday")) = some 4 ∧
    toRD ⟨2026, 3, 10⟩ ≤ toRD ⟨2026, 12, 31⟩ ∧
    (get_dates_weekly (toRD ⟨2026, 3, 10⟩) (toRD ⟨2026, 12, 31⟩) (PyStr.val ("Weekly"))
        (PyStr.val ("Friday"))).head? =
      (if toRD ⟨2026, 3, 10⟩ + (4 + 7 - weekday (toRD ⟨2026, 3, 10⟩)) % 7 ≤ toRD ⟨2026, 12, 31⟩
       then some (toRD ⟨2026, 3, 10⟩ + (4 + 7 - weekday (toRD ⟨2026, 3, 10⟩)) % 7) else none) :=
  ⟨Or.inl rfl, by decide, by decide,
    (C4_weekly_generator (toRD ⟨2026, 3, 10⟩) (toRD ⟨2026, 12, 31⟩) (PyStr.val ("Weekly"))
      (PyStr.val ("Friday")) 4 (Or.inl rfl) (by decide) (by decide)).2.2.1⟩

/-! ## Claims C1 and C2 -/

theorem txOrder_total : ∀ a b : Transaction, txOrder a b ∨ txOrder b a := by
  intro a b
  unfold txOrder
  rcases Nat.lt_trichotomy a.date b.date with h | h | h
  · exact Or.inl (Or.inl h)
  · rcases le_total b.amount a.amount with ha | ha
    · exact Or.inl (Or.inr ⟨h, ha⟩)
    · exact Or.inr (Or.inr ⟨h.symm, ha⟩)
  · exact Or.inr (Or.inl h)

theorem txOrder_trans : ∀ a b c : Transaction, txOrder a b → txOrder b c → txOrder a c := by
  intro a b c hab hbc
  unfold txOrder at *
  rcases hab with h1 | ⟨h1, ha1⟩ <;> rcases hbc with h2 | ⟨h2, ha2⟩
  · exact Or.inl (by omega)
  · exact Or.inl (by omega)
  · exact Or.inl (by omega)
  · exact Or.inr ⟨by omega, le_trans ha2 ha1⟩

instance : IsTotal Transaction txOrder := ⟨txOrder_total⟩

instance : IsTrans Transaction txOrder := ⟨fun _ _ _ => txOrder_trans _ _ _⟩

theorem sortTransactions_pairwise (l : List Transaction) :
    List.Pairwise txOrder (sortTransactions l) :=
  List.sorted_insertionSort txOrder l

theorem get_all_transactions_pairwise (seed : Rat) (startD : Date)
    (monthly : List MonthlyRow) (weekly : List WeeklyRow) (onetime : List OneTimeRow)
    (ts : List Transaction)
    (h : get_all_transactions seed startD monthly weekly onetime = some ts) :
    List.Pairwise txOrder ts := by
  unfold get_all_transactions at h
  obtain ⟨ms, _, rfl⟩ := Option.map_eq_some'.mp h
  dsimp only
  split
  · exact List.Pairwise.nil
  · exact sortTransactions_pairwise _

theorem addRunning_proj (acc : Rat) (l : List Transaction) :
    (addRunning acc l).map (fun r => (r.date, r.amount)) =
      l.map (fun t => (t.date, t.amount)) := by
  induction l generalizing acc with
  | nil => rfl
  | cons t ts ih => simp [addRunning, ih]

theorem addRunning_map_amount (acc : Rat) (l : List Transaction) :
    (addRunning acc l).map ForecastRow.amount = l.map Transaction.amount := by
  induction l generalizing acc with
  | nil => rfl
  | cons t ts ih => simp [addRunning, ih]

theorem addRunning_balance (l : List Transaction) :
    ∀ (acc : Rat) (i : Nat) (hi : i < (addRunning acc l).length),
      ((addRunning acc l).get ⟨i, hi⟩).balance =
        acc + ((l.take (i + 1)).map Transaction.amount).sum := by
  induction l with
  | nil => intro acc i hi; simp [addRunning] at hi
  | cons t ts ih =>
    intro acc i hi
    cases i with
    | zero => simp [addRunning]
    | succ n =>
      have hn : n < (addRunning (acc + t.amount) ts).length := by
        simpa [addRunning] using hi
      calc ((addRunning acc (t :: ts)).get ⟨n + 1, hi⟩).balance
          = ((addRunning (acc + t.amount) ts).get ⟨n, hn⟩).balance := rfl
        _ = (acc + t.amount) + ((ts.take (n + 1)).map Transaction.amount).sum := ih _ n hn
        _ = acc + (((t :: ts).take (n + 1 + 1)).map Transaction.amount).sum := by
            rw [List.take_succ_cons, List.map_cons, List.sum_cons]
            ring

/-- C1 (amended): every running balance of the forecast output is the strict
cumulative sum, in sorted order, of the signed amounts of all rows up to and
including that position — the Seed row's amount included at whatever position
the Seed row occupies after sorting. -/
theorem C1_running_balance (seed : Rat) (startD : Date)
    (monthly : List MonthlyRow) (weekly : List WeeklyRow) (onetime : List OneTimeRow)
    (rows : List ForecastRow)
    (h : generate_forecast seed startD monthly weekly onetime = some rows) :
    ∀ (i : Nat) (hi : i < rows.length),
      (rows.get ⟨i, hi⟩).balance = ((rows.take (i + 1)).map ForecastRow.amount).sum := by
  unfold generate_forecast at h
  obtain ⟨df, hdf, rfl⟩ := Option.map_eq_some'.mp h
  by_cases he : df.isEmpty
  · intro i hi
    revert hi
    rw [if_pos he]
    intro hi
    simp at hi
  · intro i hi
    revert hi
    rw [if_neg he]
    intro hi
    rw [addRunning_balance df 0 i hi, List.map_take, List.map_take, addRunning_map_amount,
      zero_add]

/-- The property asserted by claim C1 as stated: the Seed row (description
"Starting Balance") is the first row of the forecast output, and each running
balance equals the seed plus the signed amounts of the non-seed rows up to and
including that position. -/
def seedFirstClaim (seed : Rat) (rows : List ForecastRow) : Prop :=
  rows.head?.map ForecastRow.description = some ("Starting Balance") ∧
  ∀ (i : Nat) (hi : i < rows.length),
    (rows.get ⟨i, hi⟩).balance =
      seed + (((rows.take (i + 1)).filter
        (fun r => r.description != "Starting Balance")).map ForecastRow.amount).sum

instance (seed : Rat) (rows : List ForecastRow) : Decidable (seedFirstClaim seed rows) :=
  decidable_of_iff (rows.head?.map ForecastRow.description = some ("Starting Balance") ∧
    ∀ (i : Nat) (hi : i < rows.length),
      (rows.get ⟨i, hi⟩).balance =
        seed + (((rows.take (i + 1)).filter
          (fun r => r.description != "Starting Balance")).map ForecastRow.amount).sum) Iff.rfl

unseal Rat.add Rat.mul Rat.inv Rat.sub in
/-- C1 (counterexample to the claim as stated): with seed 100, start 2026-01-01
and a single active monthly Income rule of amount 200 on day 1, the Income row
dated 2026-01-01 sorts before the Seed row (signed amount descending on the
same date), so the Seed row is not the first row and the first running balance
is 200, not `seed + 200 = 300`. -/
theorem C1_seed_not_first :
    ¬ seedFirstClaim 100 ((generate_forecast 100 ⟨2026, 1, 1⟩
      [⟨Cell.val true, Cell.val ("Income"), some ("Sal"), Cell.val ("Job"), 200, Cell.val 1⟩] [] []).getD []) := by
  decide

unseal Rat.add Rat.mul Rat.inv Rat.sub in
theorem C1_running_balance_witness :
    ((((generate_forecast 100 ⟨2026, 1, 1⟩
        [⟨Cell.val true, Cell.val ("Income"), some ("Sal"), Cell.val ("Job"), 200, Cell.val 1⟩] [] []).getD []).get
          ⟨1, by decide⟩).balance) =
      ((((generate_forecast 100 ⟨2026, 1, 1⟩
        [⟨Cell.val true, Cell.val ("Income"), some ("Sal"), Cell.val ("Job"), 200, Cell.val 1⟩] [] []).getD []).take
          (1 + 1)).map ForecastRow.amount).sum :=
  C1_running_balance 100 ⟨2026, 1, 1⟩
    [⟨Cell.val true, Cell.val ("Income"), some ("Sal"), Cell.val ("Job"), 200, Cell.val 1⟩] [] []
    ((generate_forecast 100 ⟨2026, 1, 1⟩
      [⟨Cell.val true, Cell.val ("Income"), some ("Sal"), Cell.val ("Job"), 200, Cell.val 1⟩] [] []).getD [])
    (by decide) 1 (by decide)

unseal Rat.add Rat.mul Rat.inv Rat.sub in
/-- C2: the forecast output is sorted ascending by the actual date value and,
within an identical date, by signed amount descending; in particular, with an
Income of +200 and a Bill of -50 on the same day, the Income row precedes the
Bill row (concrete instance in the second conjunct). -/
theorem C2_sort_invariant (seed : Rat) (startD : Date)
    (monthly : List MonthlyRow) (weekly : List WeeklyRow) (onetime : List OneTimeRow)
    (rows : List ForecastRow)
    (h : generate_forecast seed startD monthly weekly onetime = some rows) :
    List.Pairwise (fun a b : ForecastRow =>
      a.date < b.date ∨ (a.date = b.date ∧ b.amount ≤ a.amount)) rows ∧
    (generate_forecast 0 ⟨2026, 3, 10⟩ [] []
        [⟨Cell.val true, Cell.val ("Income"), some ("Pay"), Cell.val ("X"), 200, some (toRD ⟨2026, 4, 1⟩)⟩,
         ⟨Cell.val true, Cell.val ("Bill"), some ("Gas"), Cell.val ("Fuel"), 50, some (toRD ⟨2026, 4, 1⟩)⟩]).map
      (List.map fun r => (r.description, r.amount)) =
      some [("Starting Balance", 0), ("Pay", 200), ("Gas", -50)] := by
  constructor
  · unfold generate_forecast at h
    obtain ⟨df, hdf, rfl⟩ := Option.map_eq_some'.mp h
    by_cases he : df.isEmpty
    · rw [if_pos he]
      exact List.Pairwise.nil
    · rw [if_neg he]
      have hp : List.Pairwise txOrder df :=
        get_all_transactions_pairwise _ _ _ _ _ _ hdf
      have h1 : List.Pairwise (fun x y : Nat × Rat => x.1 < y.1 ∨ (x.1 = y.1 ∧ y.2 ≤ x.2))
          (df.map fun t => (t.date, t.amount)) := by
        rw [List.pairwise_map]
        exact hp.imp fun hab => hab
      rw [← addRunning_proj 0 df, List.pairwise_map] at h1
      exact h1.imp fun hab => hab
  · decide

unseal Rat.add Rat.mul Rat.inv Rat.sub in
theorem C2_sort_invariant_witness :
    List.Pairwise (fun a b : ForecastRow =>
      a.date < b.date ∨ (a.date = b.date ∧ b.amount ≤ a.amount))
      ((generate_forecast 0 ⟨2026, 3, 10⟩ [] []
        [⟨Cell.val true, Cell.val ("Income"), some ("Pay"), Cell.val ("X"), 200, some (toRD ⟨2026, 4, 1⟩)⟩,
         ⟨Cell.val true, Cell.val ("Bill"), some ("Gas"), Cell.val ("Fuel"), 50, some (toRD ⟨2026, 4, 1⟩)⟩]).getD []) :=
  (C2_sort_invariant 0 ⟨2026, 3, 10⟩ [] []
    [⟨Cell.val true, Cell.val ("Income"), some ("Pay"), Cell.val ("X"), 200, some (toRD ⟨2026, 4, 1⟩)⟩,
     ⟨Cell.val true, Cell.val ("Bill"), some ("Gas"), Cell.val ("Fuel"), 50, some (toRD ⟨2026, 4, 1⟩)⟩]
    ((generate_forecast 0 ⟨2026, 3, 10⟩ [] []
      [⟨Cell.val true, Cell.val ("Income"), some ("Pay"), Cell.val ("X"), 200, some (toRD ⟨2026, 4, 1⟩)⟩,
       ⟨Cell.val true, Cell.val ("Bill"), some ("Gas"), Cell.val ("Fuel"), 50, some (toRD ⟨2026, 4, 1⟩)⟩]).getD [])
    (by decide)).1

/-! ## Claim C9 -/

theorem foldl_min_spec (l : List Rat) :
    ∀ b : Rat, (l.foldl min b = b ∨ l.foldl min b ∈ l) ∧
      l.foldl min b ≤ b ∧ ∀ x ∈ l, l.foldl min b ≤ x := by
  induction l with
  | nil => intro b; exact ⟨Or.inl rfl, le_refl _, by simp⟩
  | cons x xs ih =>
    intro b
    simp only [List.foldl_cons]
    obtain ⟨hmem, hle, hall⟩ := ih (min b x)
    refine ⟨?_, le_trans hle (min_le_left _ _), ?_⟩
    · rcases hmem with hm | hm
      · rcases min_choice b x with hc | hc
        · exact Or.inl (hm.trans hc)
        · exact Or.inr (by rw [hm, hc]; exact List.mem_cons_self x xs)
      · exact Or.inr (List.mem_cons_of_mem x hm)
    · intro y hy
      rcases List.mem_cons.mp hy with rfl | hy'
      · exact le_trans hle (min_le_right _ _)
      · exact hall y hy'

/-- C9: for a non-empty forecast, the three summary scalars satisfy: the ending
balance is the last row's running balance, the minimum balance is the least
running balance over all rows, and the average monthly surplus is
`(ending balance - seed) / max(1, months remaining through December of the
start year)`, where the code computes the months remaining as `12 - start.month`. -/
theorem C9_summary_metrics (seed : Rat) (startD : Date)
    (monthly : List MonthlyRow) (weekly : List WeeklyRow) (onetime : List OneTimeRow)
    (rows : List ForecastRow)
    (h : generate_forecast seed startD monthly weekly onetime = some rows)
    (hne : rows ≠ []) :
    ∃ endBal minBal : Rat,
      forecastMetrics seed startD monthly weekly onetime =
        some (endBal, minBal,
          (endBal - seed) / ((max 1 (12 - (startD.month : Int)) : Int) : Rat)) ∧
      endBal = (rows.getLast hne).balance ∧
      minBal ∈ rows.map ForecastRow.balance ∧
      ∀ b ∈ rows.map ForecastRow.balance, minBal ≤ b := by
  have hlast : rows.getLast? = some (rows.getLast hne) := List.getLast?_eq_getLast rows hne
  obtain ⟨hmem, hle, hall⟩ :=
    foldl_min_spec (rows.map ForecastRow.balance) ((rows.getLast hne).balance)
  refine ⟨(rows.getLast hne).balance,
    (rows.map ForecastRow.balance).foldl min ((rows.getLast hne).balance), ?_, rfl, ?_, ?_⟩
  · unfold forecastMetrics
    rw [h, Option.some_bind, hlast]
    dsimp only
    norm_num
  · rcases hmem with hm | hm
    · rw [hm]
      exact List.mem_map_of_mem _ (List.getLast_mem hne)
    · exact hm
  · exact hall

unseal Rat.add Rat.mul Rat.inv Rat.sub in
theorem C9_summary_metrics_witness :
    (forecastMetrics 1000 ⟨2026, 1, 1⟩
      [⟨Cell.val true, Cell.val ("Bill"), some ("Rent"), Cell.val ("Housing"), 500, Cell.val 1⟩] [] []).isSome = true := by
  obtain ⟨e, m, heq, -⟩ := C9_summary_metrics 1000 ⟨2026, 1, 1⟩
    [⟨Cell.val true, Cell.val ("Bill"), some ("Rent"), Cell.val ("Housing"), 500, Cell.val 1⟩] [] []
    ((generate_forecast 1000 ⟨2026, 1, 1⟩
      [⟨Cell.val true, Cell.val ("Bill"), some ("Rent"), Cell.val ("Housing"), 500, Cell.val 1⟩] [] []).getD [])
    (by decide) (by decide)
  rw [heq]
  rfl

/-! ## Claim C3 -/

theorem monthIdx_addMonthClamp (d : Date) : monthIdx (addMonthClamp d) = monthIdx d + 1 := by
  unfold addMonthClamp monthIdx
  by_cases h : d.month = 12 <;> simp [h] <;> omega

theorem addMonthClamp_month_bounds (d : Date) (hd : d.month ≤ 12) :
    1 ≤ (addMonthClamp d).month ∧ (addMonthClamp d).month ≤ 12 := by
  unfold addMonthClamp
  by_cases h : d.month = 12 <;> simp [h] <;> omega

theorem stepMonth_eq (d : Date) (day : Int) (hday : 1 ≤ day) :
    stepMonth d day = some ⟨(addMonthClamp d).year, (addMonthClamp d).month,
      (min day (monthDays (addMonthClamp d).year (addMonthClamp d).month : Int)).toNat⟩ := by
  unfold stepMonth replaceDay
  rw [if_pos ⟨le_min hday (by exact_mod_cast monthDays_pos _ _), min_le_right _ _⟩]

theorem stepMonth_props (d : Date) (day : Int) (hday : 1 ≤ day)
    (hm : 1 ≤ d.month ∧ d.month ≤ 12) :
    ∀ c, stepMonth d day = some c →
      (1 ≤ c.month ∧ c.month ≤ 12) ∧
      monthIdx c = monthIdx d + 1 ∧
      (c.day : Int) = min day (monthDays c.year c.month : Int) := by
  intro c hc
  rw [stepMonth_eq d day hday] at hc
  injection hc with hc
  subst hc
  refine ⟨addMonthClamp_month_bounds d hm.2, monthIdx_addMonthClamp d, ?_⟩
  have hpos : (1:Int) ≤ min day (monthDays (addMonthClamp d).year (addMonthClamp d).month : Int) :=
    le_min hday (by exact_mod_cast monthDays_pos _ _)
  dsimp only
  omega

theorem date_le_monthIdx_le {a b : Date} (ha : a.month ≤ 12) (h : a ≤ b) :
    monthIdx a ≤ monthIdx b := by
  rw [Date.le_def] at h
  unfold monthIdx
  omega

theorem not_le_of_monthIdx_gt {a b : Date} (ha : a.month ≤ 12) (h : monthIdx b < monthIdx a) :
    ¬ a ≤ b :=
  fun hle => absurd (date_le_monthIdx_le ha hle) (by omega)

theorem date_lt_of_monthIdx_lt {a b : Date} (ha : 1 ≤ a.month ∧ a.month ≤ 12)
    (hb : 1 ≤ b.month ∧ b.month ≤ 12) (h : monthIdx a < monthIdx b) : a < b := by
  rw [Date.lt_def]
  unfold monthIdx at h
  omega

theorem monthlyLoop_spec (endD : Date) (day : Int) (hday : 1 ≤ day) :
    ∀ (fuel : Nat) (cursor : Date),
      1 ≤ cursor.month → cursor.month ≤ 12 →
      (cursor.day : Int) = min day (monthDays cursor.year cursor.month : Int) →
      monthIdx endD < monthIdx cursor + fuel →
      ∃ ds, monthlyLoop endD day fuel cursor = some ds ∧
        (∀ d ∈ ds, (d.day : Int) = min day (monthDays d.year d.month : Int) ∧
          cursor ≤ d ∧ d ≤ endD) ∧
        List.Chain' (fun a b => monthIdx b = monthIdx a + 1) ds ∧
        ds.head? = (if cursor ≤ endD then some cursor else none) ∧
        (∀ dl ∈ ds.getLast?, ∀ c ∈ stepMonth dl day, ¬ c ≤ endD) := by
  intro fuel
  induction fuel with
  | zero =>
    intro cursor h1 h2 hclamp hfuel
    have hnot : ¬ cursor ≤ endD := not_le_of_monthIdx_gt h2 (by omega)
    refine ⟨[], ?_, by simp, List.chain'_nil, ?_, by simp⟩
    · unfold monthlyLoop
      rw [if_neg hnot]
    · rw [if_neg hnot]
      rfl
  | succ fuel ih =>
    intro cursor h1 h2 hclamp hfuel
    by_cases hle : cursor ≤ endD
    · obtain ⟨c, hc⟩ : ∃ c, stepMonth cursor day = some c := ⟨_, stepMonth_eq cursor day hday⟩
      obtain ⟨⟨hc1, hc2⟩, hcidx, hcclamp⟩ := stepMonth_props cursor day hday ⟨h1, h2⟩ c hc
      obtain ⟨ds', hds'eq, hds'mem, hds'chain, hds'head, hds'last⟩ :=
        ih c hc1 hc2 hcclamp (by omega)
      have hcc : cursor ≤ c :=
        date_le_of_lt (date_lt_of_monthIdx_lt ⟨h1, h2⟩ ⟨hc1, hc2⟩ (by omega))
      refine ⟨cursor :: ds', ?_, ?_, ?_, ?_, ?_⟩
      · unfold monthlyLoop
        rw [if_pos hle, hc]
        dsimp only
        rw [hds'eq]
        rfl
      · intro d hd
        rcases List.mem_cons.mp hd with rfl | hd'
        · exact ⟨hclamp, date_le_refl _, hle⟩
        · obtain ⟨hda, hdb, hdc⟩ := hds'mem d hd'
          exact ⟨hda, date_le_trans hcc hdb, hdc⟩
      · refine List.chain'_cons'.mpr ⟨?_, hds'chain⟩
        intro y hy
        rw [hds'head] at hy
        split at hy
        · simp only [Option.mem_def, Option.some.injEq] at hy
          rw [← hy]
          exact hcidx
        · cases hy
      · rw [if_pos hle]
        rfl
      · intro dl hdl c2 hc2'
        cases ds' with
        | nil =>
          simp only [List.getLast?_singleton, Option.mem_def, Option.some.injEq] at hdl
          subst hdl
          simp only [Option.mem_def] at hc2'
          rw [hc] at hc2'
          injection hc2' with heq
          by_cases hce : c ≤ endD
          · rw [if_pos hce] at hds'head
            exact absurd hds'head (by simp)
          · rw [← heq]
            exact hce
        | cons x xs =>
          rw [List.getLast?_cons_cons] at hdl
          exact hds'last dl hdl c2 hc2'
    · refine ⟨[], ?_, by simp, List.chain'_nil, ?_, by simp⟩
      · unfold monthlyLoop
        rw [if_neg hle]
      · rw [if_neg hle]
        rfl

theorem monthlyFirst_props (startD : Date) (day : Int) (hday : 1 ≤ day) (hs : startD.Valid) :
    1 ≤ (monthlyFirst startD day).month ∧ (monthlyFirst startD day).month ≤ 12 ∧
    ((monthlyFirst startD day).day : Int) =
      min day (monthDays (monthlyFirst startD day).year (monthlyFirst startD day).month : Int) ∧
    startD ≤ monthlyFirst startD day := by
  obtain ⟨hm1, hm2, hd1, hd2⟩ := hs
  have hdim : (1:Int) ≤ (monthDays startD.year startD.month : Int) := by
    exact_mod_cast monthDays_pos _ _
  unfold monthlyFirst replaceDay
  have hC : 1 ≤ min day (monthDays startD.year startD.month : Int) ∧
      min day (monthDays startD.year startD.month : Int) ≤
        (monthDays startD.year startD.month : Int) :=
    ⟨le_min hday hdim, min_le_right _ _⟩
  rw [if_pos hC]
  dsimp only
  split
  · rename_i hlt
    rw [Date.lt_def] at hlt
    dsimp only at hlt
    rcases le_or_lt day (monthDays startD.year startD.month : Int) with hcase | hcase
    · have hmin : min day (monthDays startD.year startD.month : Int) = day :=
        min_eq_left hcase
      rw [hmin] at hlt ⊢
      unfold addMonthClamp
      rw [Date.le_def]
      by_cases h12 : startD.month = 12
      · simp only [h12, reduceIte]
        refine ⟨by omega, by omega, ?_, Or.inl (Nat.lt_succ_self _)⟩
        push_cast [Nat.cast_min]
        rw [Int.toNat_of_nonneg (by omega)]
      · simp only [h12, reduceIte]
        refine ⟨by omega, by omega, ?_, Or.inr ⟨by trivial, Or.inl (Nat.lt_succ_self _)⟩⟩
        push_cast [Nat.cast_min]
        rw [Int.toNat_of_nonneg (by omega)]
    · exfalso
      have hmin : min day (monthDays startD.year startD.month : Int) =
          (monthDays startD.year startD.month : Int) :=
        min_eq_right (le_of_lt hcase)
      rw [hmin] at hlt
      omega
  · rename_i hlt
    rw [Date.lt_def] at hlt
    dsimp only at hlt
    rw [Date.le_def]
    dsimp only
    refine ⟨hm1, hm2, ?_, by omega⟩
    rw [Int.toNat_of_nonneg (by omega)]

/-- C3: for a valid start and end date with `startDate <= endDate` and a target
day in 1..31, the monthly generator succeeds and emits one date per month:
every emitted date's day-of-month is `min(day, daysInThatMonth)` and lies in
`[startDate, endDate]`; consecutive emitted dates are in strictly increasing
month order with no skipped or duplicated month; the first emitted date is the
initial cursor (start month with the clamped day, advanced by one month when
the candidate precedes the start date — last conjunct), emitted only if it does
not exceed `endDate`; and emission stops exactly when the next candidate would
exceed `endDate`. -/
theorem C3_monthly_generator (startD endD : Date) (day : Int)
    (hs : startD.Valid) (he : endD.Valid) (hse : startD ≤ endD)
    (h1 : 1 ≤ day) (h31 : day ≤ 31) :
    ∃ ds, get_dates_monthly startD endD day = some ds ∧
      (∀ d ∈ ds, (d.day : Int) = min day (monthDays d.year d.month : Int) ∧
        startD ≤ d ∧ d ≤ endD) ∧
      List.Chain' (fun a b => monthIdx b = monthIdx a + 1) ds ∧
      ds.head? = (if monthlyFirst startD day ≤ endD
        then some (monthlyFirst startD day) else none) ∧
      (∀ dl ∈ ds.getLast?, ∀ c ∈ stepMonth dl day, ¬ c ≤ endD) ∧
      monthlyFirst startD day =
        (if (⟨startD.year, startD.month,
            (min day (monthDays startD.year startD.month : Int)).toNat⟩ : Date) < startD
         then addMonthClamp ⟨startD.year, startD.month,
            (min day (monthDays startD.year startD.month : Int)).toNat⟩
         else ⟨startD.year, startD.month,
            (min day (monthDays startD.year startD.month : Int)).toNat⟩) := by
  obtain ⟨hf1, hf2, hf3, hf4⟩ := monthlyFirst_props startD day h1 hs
  obtain ⟨ds, hds, hmem, hchain, hhead, hlast⟩ :=
    monthlyLoop_spec endD day h1
      (monthIdx endD + 1 - monthIdx (monthlyFirst startD day))
      (monthlyFirst startD day) hf1 hf2 hf3 (by omega)
  refine ⟨ds, ?_, ?_, hchain, hhead, hlast, ?_⟩
  · unfold get_dates_monthly
    exact hds
  · intro d hd
    obtain ⟨ha, hb, hc⟩ := hmem d hd
    exact ⟨ha, date_le_trans hf4 hb, hc⟩
  · unfold monthlyFirst replaceDay
    have hC : 1 ≤ min day (monthDays startD.year startD.month : Int) ∧
        min day (monthDays startD.year startD.month : Int) ≤
          (monthDays startD.year startD.month : Int) :=
      ⟨le_min h1 (by exact_mod_cast monthDays_pos _ _), min_le_right _ _⟩
    rw [if_pos hC]

theorem C3_monthly_generator_witness :
    (⟨2026, 1, 15⟩ : Date).Valid ∧ (⟨2026, 12, 31⟩ : Date).Valid ∧
    (⟨2026, 1, 15⟩ : Date) ≤ ⟨2026, 12, 31⟩ ∧ (1:Int) ≤ 31 ∧ (31:Int) ≤ 31 ∧
    (get_dates_monthly ⟨2026, 1, 15⟩ ⟨2026, 12, 31⟩ 31).isSome = true := by
  refine ⟨by decide, by decide, by decide, by decide, by decide, ?_⟩
  obtain ⟨ds, hds, -⟩ := C3_monthly_generator ⟨2026, 1, 15⟩ ⟨2026, 12, 31⟩ 31
    (by decide) (by decide) (by decide) (by decide) (by decide)
  rw [hds]
  rfl

end BudgetApp
